import Mathlib

/-!
Verification of the PeeSafe Sales Intelligence dashboard core
(src/web_dashboard.py): the dataset loader, the filter engine and the
aggregation views, shallowly embedded over lists of records.

Numeric cells are modelled as `Option ℚ` (a missing cell, NaN in pandas,
is `none`); text cells as `Option String`.  Pandas reductions skip null
cells (`sum`, `mean`, `nunique`) and pandas `groupby` drops rows whose
grouping key is null; the embedding reproduces both behaviours.
-/

/-- Calendar date at month granularity: the period labels of this dataset
carry no day information beyond the implicit first of the month. -/
structure PDate where
  year : ℕ
  month : ℕ
deriving DecidableEq, Repr

/-- The apostrophe character, written by code point to keep the source
free of quote-mark literals. -/
def apos : Char := Char.ofNat 39

def digitVal (c : Char) : ℕ := c.toNat - 48

/-- ASCII lowercasing of one character. -/
def charLower (c : Char) : Char :=
  if 65 ≤ c.toNat ∧ c.toNat ≤ 90 then Char.ofNat (c.toNat + 32) else c

/-- Month number for a strptime month abbreviation, matched
case-insensitively as strptime does. -/
def monthOfAbbrev (a b c : Char) : Option ℕ :=
  match charLower a, charLower b, charLower c with
  | 'j', 'a', 'n' => some 1
  | 'f', 'e', 'b' => some 2
  | 'm', 'a', 'r' => some 3
  | 'a', 'p', 'r' => some 4
  | 'm', 'a', 'y' => some 5
  | 'j', 'u', 'n' => some 6
  | 'j', 'u', 'l' => some 7
  | 'a', 'u', 'g' => some 8
  | 's', 'e', 'p' => some 9
  | 'o', 'c', 't' => some 10
  | 'n', 'o', 'v' => some 11
  | 'd', 'e', 'c' => some 12
  | _, _, _ => none

/-- Strict parse of a compact month-year label against the strptime
format used at src/web_dashboard.py line 45: three-letter month
abbreviation, apostrophe, two-digit year.  The two-digit year follows
the strptime pivot: 00-68 map to 20xx, 69-99 to 19xx. -/
def parseStrictMonthYear (s : String) : Option PDate :=
  match s.toList with
  | [a, b, c, q, d1, d2] =>
    if q = apos ∧ d1.isDigit ∧ d2.isDigit then
      match monthOfAbbrev a b c with
      | some m =>
        let y2 := 10 * digitVal d1 + digitVal d2
        some ⟨if y2 ≤ 68 then 2000 + y2 else 1900 + y2, m⟩
      | none => none
    else none
  | _ => none

/-- Parse of an ISO year-month label (four-digit year, dash, two-digit
month), one of the label shapes the permissive pandas parser accepts. -/
def parseIsoYearMonth (s : String) : Option PDate :=
  match s.toList with
  | [y1, y2, y3, y4, h, m1, m2] =>
    if h = Char.ofNat 45 ∧ y1.isDigit ∧ y2.isDigit ∧ y3.isDigit ∧ y4.isDigit
        ∧ m1.isDigit ∧ m2.isDigit then
      let y := 1000 * digitVal y1 + 100 * digitVal y2 + 10 * digitVal y3 + digitVal y4
      let m := 10 * digitVal m1 + digitVal m2
      if 1 ≤ m ∧ m ≤ 12 then some ⟨y, m⟩ else none
    else none
  | _ => none

/-- Model of the permissive pandas datetime conversion with coercion
(src/web_dashboard.py line 47), at month granularity and restricted to
the label shapes relevant to this dataset: compact month-year labels
(the dateutil parser reads the apostrophe-year form) and ISO year-month
labels parse to their month; any other label coerces to a null date
instead of raising. -/
def pdToDatetimeCoerce (s : String) : Option PDate :=
  match parseStrictMonthYear s with
  | some d => some d
  | none => parseIsoYearMonth s

/-- Strict-mode value of one period cell: a null cell stays a null date
without raising, a present label parses with the strict format. -/
def strictCellValue : Option String → Option PDate
  | none => none
  | some s => parseStrictMonthYear s

/-- Permissive-mode value of one period cell under coercion. -/
def coerceCellValue : Option String → Option PDate
  | none => none
  | some s => pdToDatetimeCoerce s

/-- Whether the strict whole-column parse raises: it does exactly when
some present label fails the strict format (null cells do not raise). -/
def strictColumnFails (ms : List (Option String)) : Bool :=
  ms.any (fun m => match m with
    | none => false
    | some s => (parseStrictMonthYear s).isNone)

/-- The try/except date standardisation of src/web_dashboard.py lines
44-47: attempt the strict whole-column parse; if any label raises, fall
back to the permissive coercing parse for the whole column. -/
def parseDateColumn (ms : List (Option String)) : List (Option PDate) :=
  if strictColumnFails ms then ms.map coerceCellValue
  else ms.map strictCellValue

/-- Raw source row: the required columns of the input file, every cell
possibly missing.  The ASP cell is meaningful only when the source has
an ASP column. -/
structure Row where
  month2 : Option String
  zone : Option String
  category : Option String
  subcategory : Option String
  sku : Option String
  storeName : Option String
  amount : Option ℚ
  unitSold : Option ℚ
  asp : Option ℚ
deriving DecidableEq, Repr

/-- Loaded record: a source row plus the derived Date, filled ASP and
the zone anchor coordinates. -/
structure LRow where
  month2 : Option String
  zone : Option String
  category : Option String
  subcategory : Option String
  sku : Option String
  storeName : Option String
  amount : Option ℚ
  unitSold : Option ℚ
  asp : Option ℚ
  date : Option PDate
  lat : ℚ
  lon : ℚ
deriving DecidableEq, Repr

/-- The fixed zone-to-anchor table ZONE_COORDS of src/web_dashboard.py
lines 20-26. -/
def ZONE_COORDS : String → Option (ℚ × ℚ) := fun z =>
  if z = "North" then some (28.61, 77.20)
  else if z = "West" then some (19.07, 72.87)
  else if z = "East" then some (22.57, 88.36)
  else if z = "South" then some (12.97, 77.59)
  else if z = "Central" then some (21.14, 79.08)
  else none

def centralCoords : ℚ × ℚ := (21.14, 79.08)

/-- Anchor lookup of src/web_dashboard.py lines 53-54: dict get with the
Central anchor as default; a null zone also falls back to Central
because the mapped lambda is applied to null cells as well. -/
def zoneLatLon : Option String → ℚ × ℚ
  | none => centralCoords
  | some z => (ZONE_COORDS z).getD centralCoords

/-- Null-propagating division used for the derived ASP column
(src/web_dashboard.py line 50).  A zero denominator is modelled as a
null result; the claims under study never divide by zero. -/
def optDiv : Option ℚ → Option ℚ → Option ℚ
  | some a, some b => if b = 0 then none else some (a / b)
  | _, _ => none

/-- Builds one loaded record from a source row and its parsed date:
ASP is taken from the source when the ASP column exists and derived as
Amount divided by Unit Sold otherwise, and the anchor coordinates come
from the zone lookup. -/
def mkLRow (hasASP : Bool) (r : Row) (d : Option PDate) : LRow :=
  { month2 := r.month2, zone := r.zone, category := r.category
    subcategory := r.subcategory, sku := r.sku, storeName := r.storeName
    amount := r.amount, unitSold := r.unitSold
    asp := if hasASP then r.asp else optDiv r.amount r.unitSold
    date := d
    lat := (zoneLatLon r.zone).1
    lon := (zoneLatLon r.zone).2 }

/-- A data source: either the file read fails (missing file or any read
exception) or it yields a table of raw rows, together with whether an
ASP column is present. -/
inductive DataSource
  | unreadable
  | readable (hasASP : Bool) (rows : List Row)

/-- Fatal load failure: the read error branch of src/web_dashboard.py
lines 36-41, which reports and stops the app. -/
inductive DataSourceError
  | readFailed
deriving DecidableEq

/-- The data engine load_data of src/web_dashboard.py lines 29-56: fail
when the source cannot be read; otherwise standardise the date column,
fill the ASP column when absent, attach the zone anchor coordinates,
and return every row.  No schema validation is performed. -/
def load_data : DataSource → Except DataSourceError (List LRow)
  | .unreadable => .error .readFailed
  | .readable hasASP rows =>
    let dates := parseDateColumn (rows.map (·.month2))
    .ok (List.zipWith (mkLRow hasASP) rows dates)

/-- The label Nov-apostrophe-24 from the spec scenario. -/
def novLabel : String := String.mk [Char.ofNat 78, Char.ofNat 111, Char.ofNat 118, apos, Char.ofNat 50, Char.ofNat 52]

def garbageLabel : String := "garbage"

/-- Distinct values of a column in order of first appearance, the
semantics of the pandas unique method (null cells count as a value,
exactly as unique keeps NaN). -/
def uniqueFirst {α : Type} [DecidableEq α] : List α → List α
  | [] => []
  | a :: l => a :: (uniqueFirst l).filter (fun b => decide (b ≠ a))

/-- A filter selection: the three multiselect widgets of
src/web_dashboard.py lines 69-71, one list of accepted values per
dimension. -/
structure Selection where
  months : List (Option String)
  zones : List (Option String)
  cats : List (Option String)

/-- Empty-means-all defaulting of src/web_dashboard.py lines 77-79: an
empty selection list for a dimension is replaced by the full list of
distinct values of that column. -/
def effective (sel : List (Option String)) (col : List (Option String)) :
    List (Option String) :=
  if sel.isEmpty then uniqueFirst col else sel

def effMonths (t : List LRow) (s : Selection) : List (Option String) :=
  effective s.months (t.map (·.month2))

def effZones (t : List LRow) (s : Selection) : List (Option String) :=
  effective s.zones (t.map (·.zone))

def effCats (t : List LRow) (s : Selection) : List (Option String) :=
  effective s.cats (t.map (·.category))

/-- Row predicate of the boolean mask at src/web_dashboard.py lines
81-85: period, zone and category must each lie in the corresponding
effective accepted list (the pandas isin test also matches null cells
listed among the accepted values, which plain list membership over
optional strings reproduces). -/
def rowPass (em ez ec : List (Option String)) (r : LRow) : Bool :=
  decide (r.month2 ∈ em) && decide (r.zone ∈ ez) && decide (r.category ∈ ec)

/-- The global filter application df_filtered of src/web_dashboard.py
lines 77-85. -/
def filterTable (t : List LRow) (s : Selection) : List LRow :=
  t.filter (rowPass (effMonths t s) (effZones t s) (effCats t s))

/-- The empty-result guard of src/web_dashboard.py lines 87-89: the
warning is shown and the page stops (no aggregation) exactly when the
filtered table is empty. -/
def emptyResultSignalled (t : List LRow) (s : Selection) : Bool :=
  (filterTable t s).isEmpty

/-- Pandas column sum: null cells are skipped, an all-null column sums
to zero. -/
def optSum (l : List (Option ℚ)) : ℚ := (l.filterMap id).sum

/-- Pandas column mean: the sum of the present cells over their count,
null when no cell is present. -/
def optMean (l : List (Option ℚ)) : Option ℚ :=
  let v := l.filterMap id
  if v.length = 0 then none else some (v.sum / (v.length : ℚ))

/-- KPI total revenue, src/web_dashboard.py line 92. -/
def kpiRev (t : List LRow) : ℚ := optSum (t.map (·.amount))

/-- KPI total volume, src/web_dashboard.py line 93. -/
def kpiVol (t : List LRow) : ℚ := optSum (t.map (·.unitSold))

/-- KPI average selling price, src/web_dashboard.py line 94: the pandas
mean of the ASP column. -/
def kpiAsp (t : List LRow) : Option ℚ := optMean (t.map (·.asp))

/-- KPI active outlets, src/web_dashboard.py line 95: the pandas
nunique of the store name column, which ignores null cells. -/
def kpiStores (t : List LRow) : ℕ :=
  (uniqueFirst (t.filterMap (·.storeName))).length

/-- Ascending order on strings used for sorted group keys. -/
def strLe (a b : String) : Prop := a ≤ b

instance : DecidableRel strLe := fun a b =>
  inferInstanceAs (Decidable (a ≤ b))

/-- Generic grouped sum, the shape shared by every groupby of
src/web_dashboard.py: rows with a null grouping key are dropped, the
distinct keys are listed in ascending order, and the metric cells of
each group are summed with null cells skipped. -/
def groupSum {κ : Type} [DecidableEq κ] (keyLe : κ → κ → Prop)
    [DecidableRel keyLe] (keyOf : LRow → Option κ)
    (metric : LRow → Option ℚ) (t : List LRow) : List (κ × ℚ) :=
  (List.insertionSort keyLe (uniqueFirst (t.filterMap keyOf))).map
    (fun k => (k, optSum ((t.filter (fun r => decide (keyOf r = some k))).map metric)))

/-- Grouping key of the zone aggregate, src/web_dashboard.py line 117:
zone with its anchor coordinates; a null zone gives a null key and the
row is dropped by the groupby. -/
def zoneKey (r : LRow) : Option (String × ℚ × ℚ) :=
  r.zone.map (fun z => (z, r.lat, r.lon))

/-- Order on zone aggregate keys: zone name, then latitude, then
longitude. -/
def zagLe (a b : String × ℚ × ℚ) : Prop :=
  a.1 < b.1 ∨ (a.1 = b.1 ∧ (a.2.1 < b.2.1 ∨ (a.2.1 = b.2.1 ∧ a.2.2 ≤ b.2.2)))

instance : DecidableRel zagLe := fun a b => by
  unfold zagLe; infer_instance

/-- The zone aggregate view zone_agg of src/web_dashboard.py line 117:
group by zone with anchor coordinates, summing revenue and volume. -/
def zone_agg (t : List LRow) : List ((String × ℚ × ℚ) × ℚ × ℚ) :=
  (List.insertionSort zagLe (uniqueFirst (t.filterMap zoneKey))).map
    (fun k => (k,
      optSum ((t.filter (fun r => decide (zoneKey r = some k))).map (·.amount)),
      optSum ((t.filter (fun r => decide (zoneKey r = some k))).map (·.unitSold))))

/-- Total revenue reported by the zone aggregate view. -/
def zoneAggRevenue (t : List LRow) : ℚ :=
  ((zone_agg t).map (fun g => g.2.1)).sum

/-- Chronological order on month dates. -/
def pdLe (a b : PDate) : Prop :=
  a.year < b.year ∨ (a.year = b.year ∧ a.month ≤ b.month)

instance : DecidableRel pdLe := fun a b => by
  unfold pdLe; infer_instance

/-- The time series view trend_df of src/web_dashboard.py line 136:
revenue summed per date in chronological order; rows with a null date
are dropped by the groupby. -/
def trend_df (t : List LRow) : List (PDate × ℚ) :=
  groupSum pdLe (·.date) (·.amount) t

/-- Total revenue reported by the time series view. -/
def trendRevenue (t : List LRow) : ℚ := ((trend_df t).map (·.2)).sum

/-- Grouped store revenue underlying both leaderboards,
src/web_dashboard.py lines 193 and 201. -/
def storeRevenue (t : List LRow) : List (String × ℚ) :=
  groupSum strLe (·.storeName) (·.amount) t

/-- Descending order on summed amounts used by nlargest. -/
def rDesc (a b : String × ℚ) : Prop := b.2 ≤ a.2

instance : DecidableRel rDesc := fun a b =>
  inferInstanceAs (Decidable (b.2 ≤ a.2))

instance : IsTotal (String × ℚ) rDesc :=
  ⟨fun a b => (le_total a.2 b.2).symm⟩

instance : IsTrans (String × ℚ) rDesc :=
  ⟨fun _ _ _ h1 h2 => le_trans h2 h1⟩

/-- The top stores leaderboard of src/web_dashboard.py line 193: the
pandas nlargest with first-occurrence tie keeping, modelled as a stable
descending sort of the grouped sums followed by taking ten rows. -/
def top_stores (t : List LRow) : List (String × ℚ) :=
  (List.insertionSort rDesc (storeRevenue t)).take 10

theorem mem_uniqueFirst {α : Type} [DecidableEq α] (x : α) :
    ∀ l : List α, x ∈ uniqueFirst l ↔ x ∈ l
  | [] => by simp [uniqueFirst]
  | a :: l => by
    simp only [uniqueFirst, List.mem_cons, List.mem_filter,
      mem_uniqueFirst x l, decide_eq_true_eq]
    by_cases h : x = a <;> simp [h]

theorem nodup_uniqueFirst {α : Type} [DecidableEq α] :
    ∀ l : List α, (uniqueFirst l).Nodup
  | [] => by simp [uniqueFirst]
  | a :: l => by
    simp only [uniqueFirst, List.nodup_cons]
    refine ⟨?_, List.Nodup.filter _ (nodup_uniqueFirst l)⟩
    simp [List.mem_filter]

theorem optSum_nil : optSum [] = 0 := rfl

theorem optSum_cons (x : Option ℚ) (l : List (Option ℚ)) :
    optSum (x :: l) = x.getD 0 + optSum l := by
  cases x <;> simp [optSum, List.filterMap_cons]

theorem sum_map_ite {κ : Type} [DecidableEq κ] (a : ℚ) (k0 : κ) :
    ∀ K : List κ, K.Nodup →
      (K.map (fun k => if k0 = k then a else 0)).sum = if k0 ∈ K then a else 0
  | [], _ => by simp
  | c :: K, h => by
    rcases List.nodup_cons.mp h with ⟨hc, hK⟩
    simp only [List.map_cons, List.sum_cons, sum_map_ite a k0 K hK, List.mem_cons]
    by_cases h0 : k0 = c
    · subst h0
      simp [hc]
    · simp [h0]

theorem sum_groups {κ : Type} [DecidableEq κ] (keyOf : LRow → Option κ)
    (metric : LRow → Option ℚ) :
    ∀ (t : List LRow) (K : List κ), K.Nodup →
      (∀ r ∈ t, ∀ k, keyOf r = some k → k ∈ K) →
      (K.map (fun k =>
          optSum ((t.filter (fun r => decide (keyOf r = some k))).map metric))).sum
        = optSum ((t.filter (fun r => (keyOf r).isSome)).map metric)
  | [], K, _, _ => by simp [optSum_nil]
  | r :: t, K, hK, hcov => by
    have hstep : ∀ k : κ,
        optSum (((r :: t).filter (fun x => decide (keyOf x = some k))).map metric)
          = (if keyOf r = some k then (metric r).getD 0 else 0)
            + optSum ((t.filter (fun x => decide (keyOf x = some k))).map metric) := by
      intro k
      by_cases h : keyOf r = some k
      · simp [List.filter_cons, h, optSum_cons]
      · simp [List.filter_cons, h]
    simp only [hstep]
    rw [List.sum_map_add,
      sum_groups keyOf metric t K hK (fun x hx => hcov x (List.mem_cons_of_mem r hx))]
    cases hk : keyOf r with
    | none =>
      simp [List.filter_cons, hk]
    | some k0 =>
      have hmem : k0 ∈ K := hcov r (List.mem_cons_self r t) k0 hk
      have hsum : (K.map (fun k =>
          if some k0 = some k then (metric r).getD 0 else 0)).sum = (metric r).getD 0 := by
        have heq : (fun k => if some k0 = some k then (metric r).getD 0 else 0)
            = fun k => if k0 = k then (metric r).getD 0 else 0 := by
          funext k
          simp
        rw [heq, sum_map_ite ((metric r).getD 0) k0 K hK]
        simp [hmem]
      rw [hsum]
      simp [List.filter_cons, hk, optSum_cons]

theorem groupSum_total {κ : Type} [DecidableEq κ] (keyLe : κ → κ → Prop)
    [DecidableRel keyLe] (keyOf : LRow → Option κ) (metric : LRow → Option ℚ)
    (t : List LRow) :
    ((groupSum keyLe keyOf metric t).map (·.2)).sum
      = optSum ((t.filter (fun r => (keyOf r).isSome)).map metric) := by
  unfold groupSum
  rw [List.map_map]
  have hperm :
      ((List.insertionSort keyLe (uniqueFirst (t.filterMap keyOf))).map
          (fun k => optSum ((t.filter (fun r => decide (keyOf r = some k))).map metric))).sum
        = ((uniqueFirst (t.filterMap keyOf)).map
          (fun k => optSum ((t.filter (fun r => decide (keyOf r = some k))).map metric))).sum :=
    ((List.perm_insertionSort keyLe _).map _).sum_eq
  rw [show ((·.2) ∘ fun k =>
      (k, optSum ((t.filter (fun r => decide (keyOf r = some k))).map metric)))
      = fun k => optSum ((t.filter (fun r => decide (keyOf r = some k))).map metric) from rfl]
  rw [hperm]
  exact sum_groups keyOf metric t _ (nodup_uniqueFirst _)
    (fun r hr k hk => (mem_uniqueFirst k _).mpr
      (List.mem_filterMap.mpr ⟨r, hr, hk⟩))

theorem optSum_filter_split (p : LRow → Bool) (metric : LRow → Option ℚ) :
    ∀ t : List LRow,
      optSum (t.map metric)
        = optSum ((t.filter p).map metric)
          + optSum ((t.filter (fun r => !(p r))).map metric)
  | [] => by simp [optSum_nil]
  | r :: t => by
    cases h : p r <;>
      simp [List.filter_cons, h, optSum_cons, optSum_filter_split p metric t] <;>
      ring

theorem length_filterMap_of_isSome {α β : Type} (f : α → Option β) :
    ∀ l : List α, (∀ a ∈ l, (f a).isSome) → (l.filterMap f).length = l.length
  | [], _ => rfl
  | a :: l, h => by
    obtain ⟨b, hb⟩ := Option.isSome_iff_exists.mp (h a (List.mem_cons_self a l))
    simp [List.filterMap_cons, hb,
      length_filterMap_of_isSome f l (fun x hx => h x (List.mem_cons_of_mem a hx))]

theorem uniqueFirst_length_eq_card {α : Type} [DecidableEq α] (l : List α) :
    (uniqueFirst l).length = l.toFinset.card := by
  rw [← List.toFinset_card_of_nodup (nodup_uniqueFirst l)]
  congr 1
  ext x
  simp [List.mem_toFinset, mem_uniqueFirst]

theorem filter_orderedInsert_val (v : ℚ) (x : String × ℚ) :
    ∀ l : List (String × ℚ),
      (List.orderedInsert rDesc x l).filter (fun p => decide (p.2 = v))
        = if x.2 = v
          then x :: l.filter (fun p => decide (p.2 = v))
          else l.filter (fun p => decide (p.2 = v))
  | [] => by
    by_cases h : x.2 = v <;> simp [List.orderedInsert, h]
  | y :: ys => by
    by_cases hr : rDesc x y
    · rw [List.orderedInsert, if_pos hr]
      by_cases h : x.2 = v <;> simp [List.filter_cons, h]
    · rw [List.orderedInsert, if_neg hr]
      have hlt : x.2 < y.2 := not_le.mp hr
      by_cases h : x.2 = v
      · have hy : ¬ (y.2 = v) := fun hyv =>
          absurd (h.trans hyv.symm) (ne_of_lt hlt)
        simp [List.filter_cons, h, hy, filter_orderedInsert_val v x ys]
      · simp [List.filter_cons, h, filter_orderedInsert_val v x ys]

theorem filter_insertionSort_val (v : ℚ) :
    ∀ l : List (String × ℚ),
      (List.insertionSort rDesc l).filter (fun p => decide (p.2 = v))
        = l.filter (fun p => decide (p.2 = v))
  | [] => rfl
  | a :: l => by
    rw [List.insertionSort, filter_orderedInsert_val v a _,
      filter_insertionSort_val v l]
    by_cases h : a.2 = v <;> simp [List.filter_cons, h]

def emptySel : Selection := ⟨[], [], []⟩

/-- Every record of a table passes a filter whose selection is entirely
empty: each of its dimension values occurs in its own column. -/
theorem filterTable_emptySel (t : List LRow) : filterTable t emptySel = t := by
  apply List.filter_eq_self.mpr
  intro r hr
  simp only [rowPass, effMonths, effZones, effCats, effective, emptySel,
    List.isEmpty_nil, if_true, Bool.and_eq_true, decide_eq_true_eq,
    mem_uniqueFirst]
  exact ⟨⟨List.mem_map_of_mem _ hr, List.mem_map_of_mem _ hr⟩,
    List.mem_map_of_mem _ hr⟩

/-- Records surviving a filter still pass the same filter recomputed on
the filtered table. -/
theorem filterTable_idem_pass (t : List LRow) (s : Selection) :
    ∀ r ∈ filterTable t s,
      rowPass (effMonths (filterTable t s) s) (effZones (filterTable t s) s)
        (effCats (filterTable t s) s) r = true := by
  intro r hr
  have hmem := (List.mem_filter.mp hr).2
  simp only [rowPass, Bool.and_eq_true, decide_eq_true_eq] at hmem ⊢
  obtain ⟨⟨hm, hz⟩, hc⟩ := hmem
  refine ⟨⟨?_, ?_⟩, ?_⟩
  · by_cases h : s.months.isEmpty
    · simp only [effMonths, effective, h, if_true, mem_uniqueFirst]
      exact List.mem_map_of_mem _ hr
    · simp only [effMonths, effective, h, if_false]
      simpa only [effMonths, effective, h, if_false] using hm
  · by_cases h : s.zones.isEmpty
    · simp only [effZones, effective, h, if_true, mem_uniqueFirst]
      exact List.mem_map_of_mem _ hr
    · simp only [effZones, effective, h, if_false]
      simpa only [effZones, effective, h, if_false] using hz
  · by_cases h : s.cats.isEmpty
    · simp only [effCats, effective, h, if_true, mem_uniqueFirst]
      exact List.mem_map_of_mem _ hr
    · simp only [effCats, effective, h, if_false]
      simpa only [effCats, effective, h, if_false] using hc

/-- C1: for every canonical table and every filter selection in which
some dimension has an empty accepted list, the effective accepted list
used for that dimension is the full list of distinct values present in
the table for that dimension, so every record of the table passes that
dimension of the filter (empty means accept all, never accept none). -/
theorem empty_selection_means_accept_all (t : List LRow) (s : Selection) :
    (s.months = [] → effMonths t s = uniqueFirst (t.map (·.month2))
      ∧ ∀ r ∈ t, r.month2 ∈ effMonths t s)
    ∧ (s.zones = [] → effZones t s = uniqueFirst (t.map (·.zone))
      ∧ ∀ r ∈ t, r.zone ∈ effZones t s)
    ∧ (s.cats = [] → effCats t s = uniqueFirst (t.map (·.category))
      ∧ ∀ r ∈ t, r.category ∈ effCats t s) := by
  refine ⟨fun h => ⟨?_, ?_⟩, fun h => ⟨?_, ?_⟩, fun h => ⟨?_, ?_⟩⟩
  · simp only [effMonths, effective, h, List.isEmpty_nil, if_true]
  · intro r hr
    simp only [effMonths, effective, h, List.isEmpty_nil, if_true]
    exact (mem_uniqueFirst _ _).mpr (List.mem_map_of_mem _ hr)
  · simp only [effZones, effective, h, List.isEmpty_nil, if_true]
  · intro r hr
    simp only [effZones, effective, h, List.isEmpty_nil, if_true]
    exact (mem_uniqueFirst _ _).mpr (List.mem_map_of_mem _ hr)
  · simp only [effCats, effective, h, List.isEmpty_nil, if_true]
  · intro r hr
    simp only [effCats, effective, h, List.isEmpty_nil, if_true]
    exact (mem_uniqueFirst _ _).mpr (List.mem_map_of_mem _ hr)

/-- Witness for C1 at a concrete table and the all-empty selection. -/
theorem empty_selection_means_accept_all_witness :
    effMonths [] emptySel = uniqueFirst (([] : List LRow).map (·.month2)) :=
  ((empty_selection_means_accept_all [] emptySel).1 rfl).1

/-- C2: the filtered table is the subsequence of the canonical table
made of exactly the records whose period, zone and category each lie in
the corresponding effective accepted list (a conjunction across the
three dimensions), kept in original order with original multiplicity. -/
theorem filter_conjunctive_stable (t : List LRow) (s : Selection) :
    (filterTable t s).Sublist t
    ∧ (∀ r : LRow, r ∈ filterTable t s ↔
        r ∈ t ∧ r.month2 ∈ effMonths t s ∧ r.zone ∈ effZones t s
          ∧ r.category ∈ effCats t s)
    ∧ (∀ r : LRow, (filterTable t s).count r
        = if r.month2 ∈ effMonths t s ∧ r.zone ∈ effZones t s
            ∧ r.category ∈ effCats t s
          then t.count r else 0) := by
  refine ⟨List.filter_sublist t, fun r => ?_, fun r => ?_⟩
  · simp [filterTable, List.mem_filter, rowPass, Bool.and_eq_true,
      decide_eq_true_eq, and_assoc]
  · by_cases h : r.month2 ∈ effMonths t s ∧ r.zone ∈ effZones t s
        ∧ r.category ∈ effCats t s
    · rw [if_pos h]
      exact List.count_filter (by
        simp [rowPass, h.1, h.2.1, h.2.2])
    · rw [if_neg h, List.count_eq_zero]
      intro hmem
      have hp := (List.mem_filter.mp hmem).2
      simp only [rowPass, Bool.and_eq_true, decide_eq_true_eq] at hp
      exact h ⟨hp.1.1, hp.1.2, hp.2⟩

/-- C3: the no-data warning with its stop (the EmptyResultSet signal)
fires exactly when the filtered table has zero records; when a record
survives no signal is raised, and in particular an all-empty selection
over a non-empty table never raises it, because empty selections accept
everything. -/
theorem empty_result_guard (t : List LRow) (s : Selection) :
    (emptyResultSignalled t s = true ↔ filterTable t s = [])
    ∧ (filterTable t s ≠ [] → emptyResultSignalled t s = false)
    ∧ (t ≠ [] → emptyResultSignalled t emptySel = false) := by
  refine ⟨by simp [emptyResultSignalled, List.isEmpty_iff], ?_, ?_⟩
  · intro h
    simp [emptyResultSignalled, List.isEmpty_iff, h]
  · intro h
    simp [emptyResultSignalled, filterTable_emptySel, List.isEmpty_iff, h]

/-- Witness for C3 at a concrete non-empty table. -/
theorem empty_result_guard_witness :
    emptyResultSignalled [mkLRow true
      { month2 := some novLabel, zone := some "North", category := some "Care"
        subcategory := some "Wipes", sku := some "SKU1"
        storeName := some "S1", amount := some 100, unitSold := some 1
        asp := some 100 } (some ⟨2024, 11⟩)] emptySel = false :=
  (empty_result_guard _ emptySel).2.2 (by decide)

/-- C10: filtering is idempotent; applying the same selection to an
already filtered table changes nothing, whether the effective lists
come from the selection or, for empty dimensions, are recomputed from
the distinct values of the filtered table itself. -/
theorem filter_idempotent (t : List LRow) (s : Selection) :
    filterTable (filterTable t s) s = filterTable t s := by
  conv_lhs => rw [filterTable]
  exact List.filter_eq_self.mpr (filterTable_idem_pass t s)

/-- C5: the compact label of November 2024 parses to November 2024 under
the strict format and also under the permissive coercing parse, an
unparseable label coerces to a null date instead of raising, the time
series view totals exactly the revenue of the records with a present
date (null-date records are dropped by its date grouping), and KPI
revenue still counts those dropped records: it equals the time series
total plus the revenue of the null-date records. -/
theorem date_scenario_and_views :
    parseStrictMonthYear novLabel = some ⟨2024, 11⟩
    ∧ pdToDatetimeCoerce novLabel = some ⟨2024, 11⟩
    ∧ pdToDatetimeCoerce garbageLabel = none
    ∧ (∀ t : List LRow, trendRevenue t
        = optSum ((t.filter (fun r => (r.date).isSome)).map (·.amount)))
    ∧ (∀ t : List LRow, kpiRev t
        = trendRevenue t
          + optSum ((t.filter (fun r => !(r.date).isSome)).map (·.amount))) := by
  have htrend : ∀ t : List LRow, trendRevenue t
      = optSum ((t.filter (fun r => (r.date).isSome)).map (·.amount)) :=
    fun t => groupSum_total pdLe (·.date) (·.amount) t
  refine ⟨by decide, by decide, by decide, htrend, fun t => ?_⟩
  rw [htrend t]
  exact optSum_filter_split (fun r => (r.date).isSome) (·.amount) t

theorem strictColumnFails_iff (ms : List (Option String)) :
    strictColumnFails ms = true
      ↔ ∃ s : String, some s ∈ ms ∧ parseStrictMonthYear s = none := by
  simp only [strictColumnFails, List.any_eq_true]
  constructor
  · rintro ⟨m, hm, hf⟩
    cases m with
    | none => simp at hf
    | some s =>
      exact ⟨s, hm, by simpa [Option.isNone_iff_eq_none] using hf⟩
  · rintro ⟨s, hs, hn⟩
    exact ⟨some s, hs, by simp [hn]⟩

/-- C6: the date-parse fallback is column-global, not per-value: when
every present label of the period column parses under the strict
compact format the whole column gets the strict parse, but as soon as
one label fails, every label of the column is re-parsed in permissive
mode with unparseable labels coerced to null, as the concrete columns
with and without a bad label illustrate. -/
theorem date_fallback_is_column_global (ms : List (Option String)) :
    ((∀ s : String, some s ∈ ms → (parseStrictMonthYear s).isSome)
      → parseDateColumn ms = ms.map strictCellValue)
    ∧ ((∃ s : String, some s ∈ ms ∧ parseStrictMonthYear s = none)
      → parseDateColumn ms = ms.map coerceCellValue)
    ∧ parseDateColumn [some novLabel] = [some ⟨2024, 11⟩]
    ∧ parseDateColumn [some novLabel, some garbageLabel]
      = [some ⟨2024, 11⟩, none] := by
  refine ⟨?_, ?_, by decide, by decide⟩
  · intro h
    have hfail : ¬ strictColumnFails ms = true := by
      rw [strictColumnFails_iff]
      rintro ⟨s, hs, hn⟩
      have := h s hs
      rw [hn] at this
      simp at this
    unfold parseDateColumn
    rw [if_neg hfail]
  · intro h
    unfold parseDateColumn
    rw [if_pos ((strictColumnFails_iff ms).mpr h)]

/-- Witness for C6: the implications applied to the two concrete
columns. -/
theorem date_fallback_is_column_global_witness :
    parseDateColumn [some novLabel] = [some novLabel].map strictCellValue
    ∧ parseDateColumn [some novLabel, some garbageLabel]
      = [some novLabel, some garbageLabel].map coerceCellValue := by
  constructor
  · refine (date_fallback_is_column_global [some novLabel]).1 ?_
    intro s hs
    rw [List.mem_singleton, Option.some.injEq] at hs
    subst hs
    decide
  · refine (date_fallback_is_column_global [some novLabel, some garbageLabel]).2.1 ?_
    exact ⟨garbageLabel, by simp, by decide⟩

/-- Field preservation from a source row to its loaded record. -/
def loadPreserves (lr : LRow) (r : Row) : Prop :=
  lr.month2 = r.month2 ∧ lr.zone = r.zone ∧ lr.category = r.category
    ∧ lr.subcategory = r.subcategory ∧ lr.sku = r.sku
    ∧ lr.storeName = r.storeName ∧ lr.amount = r.amount
    ∧ lr.unitSold = r.unitSold

theorem forall2_zip_mk (hasASP : Bool) (f : Option String → Option PDate) :
    ∀ rows : List Row,
      List.Forall₂ loadPreserves
        (List.zipWith (mkLRow hasASP) rows ((rows.map (·.month2)).map f)) rows
  | [] => List.Forall₂.nil
  | r :: rows => by
    simp only [List.map_cons, List.zipWith_cons_cons]
    exact List.Forall₂.cons ⟨rfl, rfl, rfl, rfl, rfl, rfl, rfl, rfl⟩
      (forall2_zip_mk hasASP f rows)

/-- Amended C4: the loader fails exactly when the source cannot be
read; a readable source is loaded whole with no schema validation, each
loaded record keeping the cells of its source row, so a malformed row
with null zone, amount, units sold, category, subcategory, sku or store
name is kept silently rather than dropped or turned into a failure. -/
theorem load_reads_all_rows_unvalidated :
    load_data DataSource.unreadable = Except.error DataSourceError.readFailed
    ∧ ∀ (hasASP : Bool) (rows : List Row), ∃ t : List LRow,
        load_data (DataSource.readable hasASP rows) = Except.ok t
        ∧ List.Forall₂ loadPreserves t rows := by
  refine ⟨rfl, fun hasASP rows => ⟨_, rfl, ?_⟩⟩
  have hsplit : parseDateColumn (rows.map (·.month2))
        = (rows.map (·.month2)).map coerceCellValue
      ∨ parseDateColumn (rows.map (·.month2))
        = (rows.map (·.month2)).map strictCellValue := by
    unfold parseDateColumn
    split
    · exact Or.inl rfl
    · exact Or.inr rfl
  rcases hsplit with h | h <;> rw [h] <;> exact forall2_zip_mk hasASP _ rows

def malformedRow : Row :=
  { month2 := some novLabel, zone := none, category := none
    subcategory := none, sku := none, storeName := none
    amount := none, unitSold := none, asp := none }

/-- Counterexample to C4 as stated: loading a readable source that
contains a row with null zone, amount, units sold, category,
subcategory, sku and store name does not fail; the load succeeds and
the malformed row is kept, null cells and all, so the claimed non-null
guarantee does not hold. -/
theorem load_no_validation_cex :
    load_data (DataSource.readable true [malformedRow])
      = Except.ok [mkLRow true malformedRow (some ⟨2024, 11⟩)]
    ∧ (mkLRow true malformedRow (some ⟨2024, 11⟩)).zone = none
    ∧ (mkLRow true malformedRow (some ⟨2024, 11⟩)).amount = none
    ∧ (mkLRow true malformedRow (some ⟨2024, 11⟩)).storeName = none := by
  refine ⟨?_, rfl, rfl, rfl⟩
  rfl

/-- C7: the top stores leaderboard is sorted descending by summed
revenue, has at most ten rows and at most one row per distinct store of
the filtered table, and the underlying stable descending sort keeps
rows of any given summed revenue in their original grouping order
(first-occurrence tie keeping of nlargest). -/
theorem top_stores_leaderboard (t : List LRow) :
    List.Sorted rDesc (top_stores t)
    ∧ (top_stores t).length ≤ 10
    ∧ (top_stores t).length ≤ kpiStores t
    ∧ ∀ v : ℚ,
        (List.insertionSort rDesc (storeRevenue t)).filter
            (fun p => decide (p.2 = v))
          = (storeRevenue t).filter (fun p => decide (p.2 = v)) := by
  refine ⟨?_, List.length_take_le 10 _, ?_,
    fun v => filter_insertionSort_val v (storeRevenue t)⟩
  · exact List.Pairwise.sublist (List.take_sublist _ _)
      (List.sorted_insertionSort rDesc _)
  · have hlen : (List.insertionSort rDesc (storeRevenue t)).length
        = kpiStores t := by
      rw [(List.perm_insertionSort rDesc _).length_eq]
      simp [storeRevenue, groupSum, kpiStores,
        (List.perm_insertionSort strLe _).length_eq]
    rw [top_stores, List.length_take, hlen]
    exact min_le_right _ _

def demoRowA : LRow :=
  { month2 := some novLabel, zone := some "North", category := some "Hygiene"
    subcategory := some "Wipes", sku := some "SKU1", storeName := some "S1"
    amount := some 100, unitSold := some 1, asp := some 100
    date := some ⟨2024, 11⟩, lat := 28.61, lon := 77.20 }

def demoRowB : LRow :=
  { month2 := some novLabel, zone := some "South", category := some "Care"
    subcategory := some "Masks", sku := some "SKU2", storeName := some "S2"
    amount := some 10, unitSold := some 10, asp := some 1
    date := some ⟨2024, 11⟩, lat := 12.97, lon := 77.59 }

def demoT : List LRow := [demoRowA, demoRowB]

def optMul : Option ℚ → Option ℚ → Option ℚ
  | some a, some b => some (a * b)
  | _, _ => none

/-- Spec comparison definition, following the words of the spec only:
the revenue-weighted mean selling price that the spec explicitly says
the KPI average selling price is NOT; it exists solely to be separated
from the source formula. -/
def specRevenueWeightedAsp (t : List LRow) : ℚ :=
  optSum (t.map (fun r => optMul r.asp r.amount)) / kpiRev t

/-- C8: on a non-empty filtered table with present ASP cells, the KPI
summary is the sum of amounts, the sum of units sold, the plain
arithmetic mean of the per-row ASP values over the row count, and the
number of distinct store names; and on a concrete table the ASP KPI
differs both from total revenue over total volume and from the
revenue-weighted mean, so it is neither of those. -/
theorem kpi_summary :
    (∀ t : List LRow, t ≠ [] → (∀ r ∈ t, (r.asp).isSome) →
      kpiRev t = (t.filterMap (·.amount)).sum
      ∧ kpiVol t = (t.filterMap (·.unitSold)).sum
      ∧ kpiAsp t = some ((t.filterMap (·.asp)).sum / (t.length : ℚ))
      ∧ kpiStores t = (t.filterMap (·.storeName)).toFinset.card)
    ∧ kpiAsp demoT ≠ some (kpiRev demoT / kpiVol demoT)
    ∧ kpiAsp demoT ≠ some (specRevenueWeightedAsp demoT) := by
  refine ⟨fun t ht hasp => ⟨?_, ?_, ?_, ?_⟩,
    by simp [kpiAsp, optMean, kpiRev, kpiVol, optSum, demoT, demoRowA, demoRowB]
       norm_num,
    by simp [kpiAsp, optMean, kpiRev, optSum, specRevenueWeightedAsp, optMul,
        demoT, demoRowA, demoRowB]
       norm_num⟩
  · rw [kpiRev, optSum, List.filterMap_map]
    rfl
  · rw [kpiVol, optSum, List.filterMap_map]
    rfl
  · have hv : (t.map (·.asp)).filterMap id = t.filterMap (·.asp) := by
      rw [List.filterMap_map]
      rfl
    have hlen : (t.filterMap (·.asp)).length = t.length :=
      length_filterMap_of_isSome _ t hasp
    simp only [kpiAsp, optMean, hv, hlen]
    rw [if_neg (by simpa [List.length_eq_zero] using ht)]
  · rw [kpiStores, uniqueFirst_length_eq_card]

/-- Witness for C8 at the concrete two-row table. -/
theorem kpi_summary_witness :
    kpiStores demoT = (demoT.filterMap (·.storeName)).toFinset.card :=
  (kpi_summary.1 demoT (by decide) (by decide)).2.2.2

theorem zoneKey_isSome (r : LRow) : (zoneKey r).isSome = (r.zone).isSome := by
  cases h : r.zone <;> simp [zoneKey, h]

theorem zoneAggRevenue_eq (t : List LRow) :
    zoneAggRevenue t
      = optSum ((t.filter (fun r => (zoneKey r).isSome)).map (·.amount)) := by
  unfold zoneAggRevenue zone_agg
  rw [List.map_map]
  rw [show ((fun (g : (String × ℚ × ℚ) × ℚ × ℚ) => g.2.1) ∘ fun k =>
      (k, optSum ((t.filter (fun r => decide (zoneKey r = some k))).map (·.amount)),
        optSum ((t.filter (fun r => decide (zoneKey r = some k))).map (·.unitSold))))
      = fun k =>
        optSum ((t.filter (fun r => decide (zoneKey r = some k))).map (·.amount))
      from rfl]
  rw [((List.perm_insertionSort zagLe _).map _).sum_eq]
  exact sum_groups zoneKey (·.amount) t _ (nodup_uniqueFirst _)
    (fun r hr k hk => (mem_uniqueFirst k _).mpr
      (List.mem_filterMap.mpr ⟨r, hr, hk⟩))

/-- Amended C9: KPI total revenue equals the zone aggregate revenue
total plus the revenue of the records whose zone is null (the zone
grouping drops those records); in particular the two agree exactly on
filtered tables in which every record has a present zone. -/
theorem kpi_rev_matches_zone_agg (t : List LRow) :
    kpiRev t = zoneAggRevenue t
        + optSum ((t.filter (fun r => !(r.zone).isSome)).map (·.amount))
    ∧ ((∀ r ∈ t, (r.zone).isSome) → kpiRev t = zoneAggRevenue t) := by
  have h1 : kpiRev t = zoneAggRevenue t
      + optSum ((t.filter (fun r => !(r.zone).isSome)).map (·.amount)) := by
    rw [zoneAggRevenue_eq]
    rw [show (fun r : LRow => (zoneKey r).isSome) = fun r => (r.zone).isSome
      from funext zoneKey_isSome]
    exact optSum_filter_split (fun r => (r.zone).isSome) (·.amount) t
  refine ⟨h1, fun h => ?_⟩
  rw [h1, List.filter_eq_nil_iff.mpr (fun r hr => by simp [h r hr])]
  simp [optSum_nil]

/-- Witness for amended C9 at a concrete table with present zones. -/
theorem kpi_rev_matches_zone_agg_witness :
    kpiRev demoT = zoneAggRevenue demoT :=
  (kpi_rev_matches_zone_agg demoT).2 (by decide)

def nullZoneRow : LRow :=
  { month2 := some novLabel, zone := none, category := some "Care"
    subcategory := some "Wipes", sku := some "SKU1", storeName := some "S1"
    amount := some 100, unitSold := some 1, asp := some 100
    date := some ⟨2024, 11⟩, lat := 21.14, lon := 79.08 }

def tNullZone : List LRow := filterTable [nullZoneRow] emptySel

/-- Counterexample to C9 as stated: a filtered table holding one record
with revenue 100 and a null zone has KPI revenue 100 while its zone
aggregate view is empty and totals 0, because the zone grouping drops
null-zone records. -/
theorem zone_agg_inconsistency_cex :
    kpiRev tNullZone = 100 ∧ zoneAggRevenue tNullZone = 0
    ∧ kpiRev tNullZone ≠ zoneAggRevenue tNullZone := by
  have ht : tNullZone = [nullZoneRow] := filterTable_emptySel [nullZoneRow]
  have h1 : kpiRev tNullZone = 100 := by
    rw [ht]
    simp [kpiRev, optSum, nullZoneRow]
  have h2 : zoneAggRevenue tNullZone = 0 := by
    rw [ht]
    simp [zoneAggRevenue, zone_agg, zoneKey, nullZoneRow, uniqueFirst]
  refine ⟨h1, h2, ?_⟩
  rw [h1, h2]
  norm_num
